import Mathlib

/-!
# Corporate Ready page script (`src/script.js`)

A shallow embedding of the three stateful classes of the script
(`TypingEffect`, `NavigationHandler`, `ScrollAnimations`) and the proofs of
their specified properties.

Conventions of the embedding:
* a JavaScript string is the list of its UTF-16 code units, so `.length` is
  `List.length`, `.substring(0, n)` is `List.take` and `.slice(1)` is
  `List.drop 1`;
* a DOM lookup that may yield `null` is an `Option`;
* a method that can raise a `TypeError` returns the exception, next to the
  state it leaves behind when fields are changed before the exception;
* `setTimeout(f, d)` is recorded as the delay `d` in the list of timers a
  step schedules.
-/

namespace CorporateReady

/-! ## JavaScript values -/

/-- A JavaScript string: the list of its UTF-16 code units. -/
abbrev JSString := List Nat

/-- UTF-16 code units of one Unicode scalar value. -/
def utf16 (c : Char) : List Nat :=
  if c.toNat < 65536 then [c.toNat]
  else [55296 + (c.toNat - 65536) / 1024, 56320 + (c.toNat - 65536) % 1024]

/-- The JavaScript string written as the literal `s`. -/
def js (s : String) : JSString := (s.toList.map utf16).flatten

/-- Exceptions raised by the script: only property access on `null` or
`undefined` occurs. -/
inductive JSError where
  | typeError
  deriving DecidableEq, Repr

/-- The call `t.substring(0, n)`: `n` is clamped to `[0, t.length]`. -/
def substring0 (t : JSString) (n : Int) : JSString := t.take n.toNat

/-! ## Configuration (`CONFIG`, lines 7-19) -/

/-- The shape of the `CONFIG` object. -/
structure Config where
  typingTexts : List JSString
  typingSpeed : Nat
  deletingSpeed : Nat
  pauseTime : Nat
  scrollThreshold : ℚ

/-- The constant `CONFIG`. -/
def CONFIG : Config where
  typingTexts := [
    js "Prepare for Corporate Life",
    js "Build Professional Skills",
    js "Understand Corporate Culture",
    js "Master Workplace Etiquette",
    js "Succeed in Your First Job"]
  typingSpeed := 50
  deletingSpeed := 30
  pauseTime := 2000
  scrollThreshold := 1 / 5

/-! ## TypingEffect (lines 22-65) -/

/-- The element the typing effect writes into; only `textContent` is used. -/
structure Element where
  textContent : JSString
  deriving DecidableEq

/-- The fields of a `TypingEffect` instance. `element` is `none` when
`document.getElementById` returned `null`. -/
structure TypingEffect where
  element : Option Element
  textArray : List JSString
  config : Config
  currentIndex : Nat
  charIndex : Int
  isDeleting : Bool

/-- What one call of `typeText` does besides updating the fields: the value
assigned to `element.textContent` (if any) and the delays of the timers it
schedules, each of which calls `typeText` again. -/
structure Effects where
  write : Option JSString
  timers : List ℚ

/-- One call of `TypingEffect.typeText` (lines 38-64). An exception is raised
before any field is changed, so the error case carries no state.

`currentText` is `undefined` (`none`) when `currentIndex` is out of range; it
is only dereferenced where the source does so: `currentText.length` is
evaluated only when `isDeleting` is false, `currentText.substring` only in the
two writing branches. In the last branch JavaScript computes `NaN` for
`(currentIndex + 1) % 0`; here the value is `currentIndex + 1`, which like
`NaN` indexes nothing in the empty array. -/
def typeText (s : TypingEffect) : Except JSError (TypingEffect × Effects) :=
  let currentText := s.textArray[s.currentIndex]?
  if !s.isDeleting then
    match currentText with
    | none => .error .typeError
    | some t =>
      if s.charIndex < t.length then
        match s.element with
        | none => .error .typeError
        | some _ =>
          .ok ({ s with
                  element := some ⟨substring0 t (s.charIndex + 1)⟩
                  charIndex := s.charIndex + 1 },
               ⟨some (substring0 t (s.charIndex + 1)), [(s.config.typingSpeed : ℚ)]⟩)
      else if s.charIndex = t.length then
        .ok ({ s with isDeleting := true }, ⟨none, [(s.config.pauseTime : ℚ)]⟩)
      else
        .ok (s, ⟨none, []⟩)
  else if s.charIndex > 0 then
    match currentText, s.element with
    | some t, some _ =>
      .ok ({ s with
              element := some ⟨substring0 t (s.charIndex - 1)⟩
              charIndex := s.charIndex - 1 },
           ⟨some (substring0 t (s.charIndex - 1)), [(s.config.deletingSpeed : ℚ)]⟩)
    | _, _ => .error .typeError
  else if s.charIndex = 0 then
    .ok ({ s with
            isDeleting := false
            currentIndex := (s.currentIndex + 1) % s.textArray.length },
         ⟨none, [(s.config.pauseTime : ℚ) / 2]⟩)
  else
    .ok (s, ⟨none, []⟩)

/-- The fields as the constructor sets them (lines 24-29), before `init()`. -/
def TypingEffect.initial (element : Option Element) (textArray : List JSString)
    (config : Config) : TypingEffect where
  element := element
  textArray := textArray
  config := config
  currentIndex := 0
  charIndex := 0
  isDeleting := false

/-- The call `init()` (lines 33-36): nothing without an element, otherwise the
first call of `typeText`. -/
def TypingEffect.init (s : TypingEffect) : Except JSError (TypingEffect × Effects) :=
  match s.element with
  | none => .ok (s, ⟨none, []⟩)
  | some _ => typeText s

/-- The expression `new TypingEffect(elementId, textArray, config)` in a document
whose `getElementById` is `getElementById`. -/
def TypingEffect.new (getElementById : JSString → Option Element) (elementId : JSString)
    (textArray : List JSString) (config : Config) :
    Except JSError (TypingEffect × Effects) :=
  TypingEffect.init (TypingEffect.initial (getElementById elementId) textArray config)

/-- The timer chain: `typeText` is called, and called again when the timer it
scheduled fires, up to `n` calls. A call that schedules no timer ends the
chain. Returns the fields after the last call and the effects of each call. -/
def runSteps : Nat → TypingEffect → Except JSError (TypingEffect × List Effects)
  | 0, s => .ok (s, [])
  | n + 1, s =>
    match typeText s with
    | .error e => .error e
    | .ok (s', ev) =>
      if ev.timers.isEmpty then .ok (s', [ev])
      else
        match runSteps n s' with
        | .error e => .error e
        | .ok (s'', evs) => .ok (s'', ev :: evs)

/-- States the machine passes through: the constructor's initial fields, and
the fields after any successful call of `typeText`. -/
inductive Reachable (element : Option Element) (textArray : List JSString)
    (config : Config) : TypingEffect → Prop where
  | init : Reachable element textArray config
      (TypingEffect.initial element textArray config)
  | step {s s' : TypingEffect} {ev : Effects} :
      Reachable element textArray config s → typeText s = .ok (s', ev) →
      Reachable element textArray config s'


/-! ## NavigationHandler (lines 68-125) and the Escape key (lines 244-252) -/

/-- The `classList` of an element, as far as the script reads or writes it:
whether it contains `'active'`. -/
structure ClassList where
  active : Bool
  deriving DecidableEq

/-- A `section` element: its `offsetTop` and its `id` attribute, `none` when
`getAttribute('id')` is `null`. -/
structure Section where
  offsetTop : Int
  id : Option JSString
  deriving DecidableEq

/-- An element of `querySelectorAll('.nav-link')`: its `href` attribute, `none`
when `getAttribute('href')` is `null`, and whether its `classList` contains
`'active'`. -/
structure NavLink where
  href : Option JSString
  active : Bool
  deriving DecidableEq

/-- The fields of a `NavigationHandler`: `hamburger` and `navMenu` are `none` when
`getElementById` returned `null`. The two elements and the links are distinct
elements of the page. -/
structure NavigationHandler where
  hamburger : Option ClassList
  navMenu : Option ClassList
  navLinks : List NavLink
  deriving DecidableEq

/-- The call `toggleMenu()` (lines 91-94): the handler after the call and the
exception raised, if any. `this.hamburger.classList` on `null` raises at once;
`this.navMenu.classList` on `null` raises after the hamburger was toggled. -/
def toggleMenu (nh : NavigationHandler) : NavigationHandler × Option JSError :=
  match nh.hamburger with
  | none => (nh, some .typeError)
  | some hb =>
    let nh1 := { nh with hamburger := some ⟨!hb.active⟩ }
    match nh1.navMenu with
    | none => (nh1, some .typeError)
    | some m => ({ nh1 with navMenu := some ⟨!m.active⟩ }, none)

/-- The call `closeMenu()` (lines 96-99). -/
def closeMenu (nh : NavigationHandler) : NavigationHandler × Option JSError :=
  match nh.hamburger with
  | none => (nh, some .typeError)
  | some _ =>
    let nh1 := { nh with hamburger := some ⟨false⟩ }
    match nh1.navMenu with
    | none => (nh1, some .typeError)
    | some _ => ({ nh1 with navMenu := some ⟨false⟩ }, none)

/-- The user events that reach `toggleMenu` and `closeMenu`. -/
inductive MenuEvent where
  | hamburgerClick
  | navLinkClick (index : Nat)
  | escapeKey
  deriving DecidableEq

/-- The listeners registered by `NavigationHandler.init` (lines 76-89) and by
`initKeyboardNavigation` (lines 245-252, with `window.navigationHandler` set to
this handler): the hamburger listener exists only when the hamburger does, each
existing nav link closes the menu, and so does the Escape key. -/
def dispatch (nh : NavigationHandler) : MenuEvent → NavigationHandler × Option JSError
  | .hamburgerClick =>
    match nh.hamburger with
    | none => (nh, none)
    | some _ => toggleMenu nh
  | .navLinkClick index => if index < nh.navLinks.length then closeMenu nh else (nh, none)
  | .escapeKey => closeMenu nh

/-- The first loop of `updateActiveLink` (lines 102-115): `current` starts as the
empty string and is overwritten by the `id` of every section, in document order,
with `scrollY >= offsetTop - 200`. The result is `none` for `null`. -/
def currentSection (sections : List Section) (scrollY : ℚ) : Option JSString :=
  sections.foldl
    (fun current sec =>
      if scrollY ≥ (sec.offsetTop : ℚ) - 200 then sec.id else current)
    (some [])

/-- The second loop of `updateActiveLink` (lines 118-123) over the remaining
links: each link loses `'active'`, then gets it back when `href.slice(1)` is
strictly equal to `current`. A link without `href` raises after its own
`'active'` was removed and leaves the links after it untouched. -/
def markLinks (current : Option JSString) : List NavLink → List NavLink × Option JSError
  | [] => ([], none)
  | link :: rest =>
    let cleared : NavLink := { link with active := false }
    match link.href with
    | none => (cleared :: rest, some .typeError)
    | some href =>
      let marked : NavLink :=
        if some (href.drop 1) = current then { cleared with active := true } else cleared
      ((marked :: (markLinks current rest).1), (markLinks current rest).2)

/-- The call `updateActiveLink()` (lines 101-124) in a document whose `section`
elements are `sections` and whose scroll offset is `scrollY`. -/
def updateActiveLink (nh : NavigationHandler) (sections : List Section) (scrollY : ℚ) :
    NavigationHandler × Option JSError :=
  ({ nh with navLinks := (markLinks (currentSection sections scrollY) nh.navLinks).1 },
   (markLinks (currentSection sections scrollY) nh.navLinks).2)

/-- The target of a nav link: `href.slice(1)`. -/
def NavLink.target (link : NavLink) : Option JSString := link.href.map (List.drop 1)

/-- A nav link with its `'active'` class set according to `current`. -/
def NavLink.mark (current : Option JSString) (link : NavLink) : NavLink :=
  { link with active := decide (link.target = current) }

/-- The number of nav links carrying `'active'`. -/
def activeCount (links : List NavLink) : Nat := (links.filter (fun l => l.active)).length

/-! ## ScrollAnimations (lines 128-161) -/

/-- The inline style of an element: the two properties the observer callback
writes. -/
structure Style where
  animation : JSString
  opacity : JSString
  deriving DecidableEq

/-- The state `handleIntersection` acts on: the inline style of every element
(elements are named by numbers) and the set of elements the observer watches. -/
structure ScrollAnimations where
  style : Nat → Style
  observed : List Nat

/-- An `IntersectionObserverEntry`. -/
structure Entry where
  target : Nat
  isIntersecting : Bool
  deriving DecidableEq

/-- The body of the `forEach` in `handleIntersection` (lines 151-158). -/
def handleEntry (s : ScrollAnimations) (entry : Entry) : ScrollAnimations :=
  if entry.isIntersecting then
    { style := Function.update s.style entry.target
        { s.style entry.target with
            animation := js "fadeInUp 0.6s ease forwards"
            opacity := js "0" }
      observed := s.observed.filter (fun x => x ≠ entry.target) }
  else s

/-- The call `handleIntersection(entries)` (lines 149-160). -/
def handleIntersection (s : ScrollAnimations) (entries : List Entry) : ScrollAnimations :=
  entries.foldl handleEntry s

/-- A block that has been revealed: opacity `'0'`, the fade-in animation, and no
longer watched. -/
def Revealed (s : ScrollAnimations) (x : Nat) : Prop :=
  (s.style x).animation = js "fadeInUp 0.6s ease forwards" ∧
    (s.style x).opacity = js "0" ∧ x ∉ s.observed

/-- The targets of the intersecting entries of a batch. -/
def intersecting (entries : List Entry) : List Nat :=
  (entries.filter (fun e => e.isIntersecting)).map (fun e => e.target)

/-! ## Auxiliary definitions for the typing machine -/

/-- The invariant of the typing machine: the phrase list is the configured one,
`currentIndex` names a phrase and `charIndex` lies within it. -/
def TypingInv (textArray : List JSString) (s : TypingEffect) : Prop :=
  s.textArray = textArray ∧
    ∃ t, s.textArray[s.currentIndex]? = some t ∧ 0 ≤ s.charIndex ∧ s.charIndex ≤ t.length

/-- The machine on phrase `i` with `k` characters shown. -/
def phraseState (element : Option Element) (textArray : List JSString) (config : Config)
    (i : Nat) (k : Nat) (deleting : Bool) : TypingEffect where
  element := element
  textArray := textArray
  config := config
  currentIndex := i
  charIndex := (k : Int)
  isDeleting := deleting

/-- Effects of the `m` typing steps that follow `j` shown characters of `P`. -/
def typingLog (config : Config) (P : JSString) (j m : Nat) : List Effects :=
  (List.range m).map fun r => ⟨some (P.take (j + r + 1)), [(config.typingSpeed : ℚ)]⟩

/-- Effects of `m` deleting steps that start from `k` shown characters of `P`. -/
def deletingLog (config : Config) (P : JSString) (k m : Nat) : List Effects :=
  (List.range m).map fun r => ⟨some (P.take (k - 1 - r)), [(config.deletingSpeed : ℚ)]⟩

/-! ## Properties of TypingEffect -/



theorem typingInv_initial (element : Option Element) (textArray : List JSString)
    (config : Config) (hne : textArray ≠ []) :
    TypingInv textArray (TypingEffect.initial element textArray config) := by
  obtain ⟨t, ts, rfl⟩ := List.exists_cons_of_ne_nil hne
  exact ⟨rfl, t, by simp [TypingEffect.initial], by simp [TypingEffect.initial],
    by simp [TypingEffect.initial]⟩

theorem typingInv_step (textArray : List JSString) (hne : textArray ≠ [])
    {s s' : TypingEffect} {ev : Effects}
    (hs : TypingInv textArray s) (hstep : typeText s = .ok (s', ev)) :
    TypingInv textArray s' := by
  obtain ⟨hts, t, ht, h0, hle⟩ := hs
  have hpos : 0 < s.textArray.length := by
    rw [hts]; exact List.length_pos.mpr hne
  unfold typeText at hstep
  simp only [ht] at hstep
  split_ifs at hstep with hd hlt heq hgt hz
  · cases hel : s.element with
    | none => simp [hel] at hstep
    | some e =>
      simp only [hel, Except.ok.injEq, Prod.mk.injEq] at hstep
      obtain ⟨rfl, -⟩ := hstep
      exact ⟨hts, t, ht, by simp only; omega, by simp only; omega⟩
  · simp only [Except.ok.injEq, Prod.mk.injEq] at hstep
    obtain ⟨rfl, -⟩ := hstep
    exact ⟨hts, t, ht, h0, hle⟩
  · simp only [Except.ok.injEq, Prod.mk.injEq] at hstep
    obtain ⟨rfl, -⟩ := hstep
    exact ⟨hts, t, ht, h0, hle⟩
  · cases hel : s.element with
    | none => simp [hel] at hstep
    | some e =>
      simp only [hel, Except.ok.injEq, Prod.mk.injEq] at hstep
      obtain ⟨rfl, -⟩ := hstep
      exact ⟨hts, t, ht, by simp only; omega, by simp only; omega⟩
  · simp only [Except.ok.injEq, Prod.mk.injEq] at hstep
    obtain ⟨rfl, -⟩ := hstep
    have hlt : (s.currentIndex + 1) % s.textArray.length < s.textArray.length :=
      Nat.mod_lt _ hpos
    refine ⟨hts, s.textArray[(s.currentIndex + 1) % s.textArray.length], ?_, ?_, ?_⟩
    · simp only; exact List.getElem?_eq_getElem hlt
    · simp only; omega
    · simp only; omega
  · simp only [Except.ok.injEq, Prod.mk.injEq] at hstep
    obtain ⟨rfl, -⟩ := hstep
    exact ⟨hts, t, ht, h0, hle⟩

theorem typingInv_of_reachable (element : Option Element) (textArray : List JSString)
    (config : Config) (hne : textArray ≠ []) {s : TypingEffect}
    (h : Reachable element textArray config s) : TypingInv textArray s := by
  induction h with
  | init => exact typingInv_initial element textArray config hne
  | step _ hstep ih => exact typingInv_step textArray hne ih hstep

/-- C2: for a non-empty phrase list, every state reached from the constructor's
initial fields by calls of `typeText` has `currentIndex` inside the list and
`0 ≤ charIndex ≤ length(textArray[currentIndex])`. -/
theorem reachable_charIndex_bounds (element : Option Element) (textArray : List JSString)
    (config : Config) (hne : textArray ≠ []) (s : TypingEffect)
    (h : Reachable element textArray config s) :
    s.textArray = textArray ∧ s.currentIndex < textArray.length ∧
      ∃ t, textArray[s.currentIndex]? = some t ∧ 0 ≤ s.charIndex ∧ s.charIndex ≤ t.length := by
  obtain ⟨hts, t, ht, h0, hle⟩ := typingInv_of_reachable element textArray config hne h
  rw [hts] at ht
  refine ⟨hts, ?_, t, ht, h0, hle⟩
  by_contra hge
  rw [List.getElem?_eq_none (by omega)] at ht
  exact absurd ht (by simp)

theorem runSteps_succ {s s' : TypingEffect} {ev : Effects} (n : Nat)
    (h : typeText s = .ok (s', ev)) (ht : ev.timers.isEmpty = false) :
    runSteps (n + 1) s = Except.map (fun p => (p.1, ev :: p.2)) (runSteps n s') := by
  rw [runSteps, h]
  simp only [ht]
  cases runSteps n s' <;> rfl

theorem typeText_typing (e : Element) (textArray : List JSString) (config : Config)
    (i k : Nat) (P : JSString) (hP : textArray[i]? = some P) (hk : k < P.length) :
    typeText (phraseState (some e) textArray config i k false) =
      .ok (phraseState (some ⟨P.take (k + 1)⟩) textArray config i (k + 1) false,
           ⟨some (P.take (k + 1)), [(config.typingSpeed : ℚ)]⟩) := by
  have h1 : ((k : Int) + 1).toNat = k + 1 := by omega
  simp [typeText, phraseState, hP, hk, substring0, h1]

theorem typeText_pause (el : Option Element) (textArray : List JSString) (config : Config)
    (i : Nat) (P : JSString) (hP : textArray[i]? = some P) :
    typeText (phraseState el textArray config i P.length false) =
      .ok (phraseState el textArray config i P.length true,
           ⟨none, [(config.pauseTime : ℚ)]⟩) := by
  simp [typeText, phraseState, hP]

theorem typeText_deleting (e : Element) (textArray : List JSString) (config : Config)
    (i k : Nat) (P : JSString) (hP : textArray[i]? = some P) :
    typeText (phraseState (some e) textArray config i (k + 1) true) =
      .ok (phraseState (some ⟨P.take k⟩) textArray config i k true,
           ⟨some (P.take k), [(config.deletingSpeed : ℚ)]⟩) := by
  have h0 : (0 : Int) < (k : Int) + 1 := by omega
  simp [typeText, phraseState, hP, substring0, h0]

theorem typeText_advance (el : Option Element) (textArray : List JSString) (config : Config)
    (i : Nat) :
    typeText (phraseState el textArray config i 0 true) =
      .ok (phraseState el textArray config ((i + 1) % textArray.length) 0 false,
           ⟨none, [(config.pauseTime : ℚ) / 2]⟩) := by
  simp [typeText, phraseState]

theorem typingLog_succ (config : Config) (P : JSString) (j m : Nat) :
    typingLog config P j (m + 1) =
      ⟨some (P.take (j + 1)), [(config.typingSpeed : ℚ)]⟩ :: typingLog config P (j + 1) m := by
  simp only [typingLog, List.range_succ_eq_map, List.map_cons, List.map_map]
  congr 1
  apply List.map_congr_left
  intro r _
  simp only [Function.comp, Nat.succ_eq_add_one]
  rw [show j + (r + 1) + 1 = j + 1 + r + 1 by omega]

theorem deletingLog_succ (config : Config) (P : JSString) (k m : Nat) :
    deletingLog config P (k + 1) (m + 1) =
      ⟨some (P.take k), [(config.deletingSpeed : ℚ)]⟩ :: deletingLog config P k m := by
  simp only [deletingLog, List.range_succ_eq_map, List.map_cons, List.map_map]
  congr 1
  apply List.map_congr_left
  intro r _
  simp only [Function.comp, Nat.succ_eq_add_one]
  rw [show k + 1 - 1 - (r + 1) = k - 1 - r by omega]

theorem runSteps_typing (textArray : List JSString) (config : Config) (i : Nat)
    (P : JSString) (hP : textArray[i]? = some P) (n : Nat) :
    ∀ (m j : Nat) (e : Element), j + m ≤ P.length →
      runSteps (m + n) (phraseState (some e) textArray config i j false) =
        Except.map (fun p => (p.1, typingLog config P j m ++ p.2))
          (runSteps n (phraseState (some (if m = 0 then e else ⟨P.take (j + m)⟩))
            textArray config i (j + m) false)) := by
  intro m
  induction m with
  | zero =>
    intro j e _
    simp only [typingLog, List.range_zero, List.map_nil, List.nil_append, Nat.zero_add,
      Nat.add_zero, if_true]
    cases runSteps n (phraseState (some e) textArray config i j false) <;> rfl
  | succ m ih =>
    intro j e hj
    rw [show m + 1 + n = (m + n) + 1 by omega,
      runSteps_succ (m + n) (typeText_typing e textArray config i j P hP (by omega)) rfl,
      ih (j + 1) ⟨P.take (j + 1)⟩ (by omega), typingLog_succ]
    have hidx : j + 1 + m = j + (m + 1) := by omega
    have hel : (if m = 0 then (⟨P.take (j + 1)⟩ : Element) else ⟨P.take (j + 1 + m)⟩) =
        ⟨P.take (j + (m + 1))⟩ := by
      split_ifs with h
      · subst h; rfl
      · rw [hidx]
    rw [hel, hidx, if_neg (Nat.succ_ne_zero m)]
    cases runSteps n (phraseState (some ⟨P.take (j + (m + 1))⟩) textArray config i
      (j + (m + 1)) false) <;> rfl

theorem runSteps_deleting (textArray : List JSString) (config : Config) (i : Nat)
    (P : JSString) (hP : textArray[i]? = some P) (n : Nat) :
    ∀ (m k : Nat) (e : Element), m ≤ k →
      runSteps (m + n) (phraseState (some e) textArray config i k true) =
        Except.map (fun p => (p.1, deletingLog config P k m ++ p.2))
          (runSteps n (phraseState (some (if m = 0 then e else ⟨P.take (k - m)⟩))
            textArray config i (k - m) true)) := by
  intro m
  induction m with
  | zero =>
    intro k e _
    simp only [deletingLog, List.range_zero, List.map_nil, List.nil_append, Nat.zero_add,
      Nat.sub_zero, if_true]
    cases runSteps n (phraseState (some e) textArray config i k true) <;> rfl
  | succ m ih =>
    intro k e hk
    obtain ⟨k, rfl⟩ : ∃ k', k = k' + 1 := ⟨k - 1, by omega⟩
    rw [show m + 1 + n = (m + n) + 1 by omega,
      runSteps_succ (m + n) (typeText_deleting e textArray config i k P hP) rfl,
      ih k ⟨P.take k⟩ (by omega), deletingLog_succ]
    have hidx : k + 1 - (m + 1) = k - m := by omega
    have hel : (if m = 0 then (⟨P.take k⟩ : Element) else ⟨P.take (k - m)⟩) =
        ⟨P.take (k - m)⟩ := by
      split_ifs with h
      · subst h; rfl
      · rfl
    rw [hel, hidx, if_neg (Nat.succ_ne_zero m)]
    cases runSteps n (phraseState (some ⟨P.take (k - m)⟩) textArray config i (k - m) true) <;> rfl

theorem typeText_progress (textArray : List JSString) {s : TypingEffect}
    (hs : TypingInv textArray s) (hel : s.element.isSome = true) :
    ∃ s' ev, typeText s = .ok (s', ev) ∧ ev.timers.length = 1 ∧ s'.element.isSome = true := by
  obtain ⟨-, t, ht, h0, hle⟩ := hs
  obtain ⟨e, he⟩ := Option.isSome_iff_exists.mp hel
  unfold typeText
  simp only [ht, he]
  split_ifs with hd hlt heq hgt hz
  · exact ⟨_, _, rfl, rfl, rfl⟩
  · exact ⟨_, _, rfl, rfl, by simp [he]⟩
  · omega
  · exact ⟨_, _, rfl, rfl, rfl⟩
  · exact ⟨_, _, rfl, rfl, by simp [he]⟩
  · omega

theorem runSteps_total (textArray : List JSString) (hne : textArray ≠ []) (n : Nat) :
    ∀ s : TypingEffect, TypingInv textArray s → s.element.isSome = true →
      ∃ s' log, runSteps n s = .ok (s', log) ∧ log.length = n ∧
        ∀ ev ∈ log, ev.timers.length = 1 := by
  induction n with
  | zero => intro s _ _; exact ⟨s, [], rfl, rfl, by simp⟩
  | succ n ih =>
    intro s hs hel
    obtain ⟨s', ev, hstep, hlen, hel'⟩ := typeText_progress textArray hs hel
    obtain ⟨s'', log, hrun, hlog, hall⟩ := ih s' (typingInv_step textArray hne hs hstep) hel'
    have hne' : ev.timers.isEmpty = false := by
      cases h : ev.timers with
      | nil => rw [h] at hlen; simp at hlen
      | cons _ _ => rfl
    refine ⟨s'', ev :: log, ?_, by simp [hlog], ?_⟩
    · rw [runSteps_succ n hstep hne', hrun]; rfl
    · intro x hx
      rcases List.mem_cons.mp hx with rfl | hx
      · exact hlen
      · exact hall x hx

/-- C1: from `(currentIndex = i, charIndex = 0, not deleting)` on a phrase `P` of
length `L`, the first `L` calls of `typeText` write the prefixes of `P` of
lengths `1 .. L`, the next call writes nothing and switches to deleting, the
following `L` calls write the prefixes of lengths `L-1 .. 0`, and the call after
that leaves `(currentIndex = (i+1) mod N, charIndex = 0, not deleting)`; each
call schedules exactly one timer, and the chain of calls never ends. -/
theorem typeText_cycle (e : Element) (textArray : List JSString) (config : Config)
    (i : Nat) (hi : i < textArray.length) :
    let P := textArray[i]
    let L := P.length
    let start := phraseState (some e) textArray config i 0 false
    let shown : Element := if L = 0 then e else ⟨P⟩
    let cleared : Element := if L = 0 then e else ⟨[]⟩
    let typing : List Effects :=
      (List.range L).map fun r => ⟨some (P.take (r + 1)), [(config.typingSpeed : ℚ)]⟩
    let pause : Effects := ⟨none, [(config.pauseTime : ℚ)]⟩
    let deleting : List Effects :=
      (List.range L).map fun r => ⟨some (P.take (L - 1 - r)), [(config.deletingSpeed : ℚ)]⟩
    let advance : Effects := ⟨none, [(config.pauseTime : ℚ) / 2]⟩
    runSteps L start = .ok (phraseState (some shown) textArray config i L false, typing) ∧
    runSteps (L + 1) start =
      .ok (phraseState (some shown) textArray config i L true, typing ++ [pause]) ∧
    runSteps (L + 1 + L) start =
      .ok (phraseState (some cleared) textArray config i 0 true,
           typing ++ [pause] ++ deleting) ∧
    runSteps (L + 1 + L + 1) start =
      .ok (phraseState (some cleared) textArray config ((i + 1) % textArray.length) 0 false,
           typing ++ [pause] ++ deleting ++ [advance]) ∧
    ∀ n, ∃ s log, runSteps n start = .ok (s, log) ∧ log.length = n ∧
      ∀ ev ∈ log, ev.timers.length = 1 := by
  intro P L start shown cleared typing pause deleting advance
  have hP : textArray[i]? = some P := List.getElem?_eq_getElem hi
  have htyping : typingLog config P 0 L = typing := by
    simp only [typingLog, Nat.zero_add, typing]
  have hdeleting : deletingLog config P L L = deleting := rfl
  have hshown : (if L = 0 then e else (⟨P.take (0 + L)⟩ : Element)) = shown := by
    simp only [Nat.zero_add, shown, L, List.take_length]
  have hcleared : (if L = 0 then shown else (⟨P.take (L - L)⟩ : Element)) = cleared := by
    simp only [Nat.sub_self, List.take_zero, shown, cleared]
    split_ifs <;> rfl
  have hT : ∀ n, runSteps (L + n) start =
      Except.map (fun p => (p.1, typing ++ p.2))
        (runSteps n (phraseState (some shown) textArray config i L false)) := by
    intro n
    have h := runSteps_typing textArray config i P hP n L 0 e (by omega)
    rw [hshown, htyping, Nat.zero_add] at h
    exact h
  have hD : ∀ n, runSteps (L + n) (phraseState (some shown) textArray config i L true) =
      Except.map (fun p => (p.1, deleting ++ p.2))
        (runSteps n (phraseState (some cleared) textArray config i 0 true)) := by
    intro n
    have h := runSteps_deleting textArray config i P hP n L L shown (le_refl _)
    rw [hcleared, hdeleting, Nat.sub_self] at h
    exact h
  have hpause := typeText_pause (some shown) textArray config i P hP
  have hadv := typeText_advance (some cleared) textArray config i
  refine ⟨?_, ?_, ?_, ?_, ?_⟩
  · have h := hT 0
    simpa [runSteps, Except.map] using h
  · rw [hT 1, runSteps_succ 0 hpause rfl]
    rfl
  · rw [show L + 1 + L = L + (1 + L) by omega, hT (1 + L),
      show 1 + L = (L + 0) + 1 by omega, runSteps_succ (L + 0) hpause rfl, hD 0]
    simp [runSteps, Except.map]
  · rw [show L + 1 + L + 1 = L + ((L + 1) + 1) by omega, hT ((L + 1) + 1),
      runSteps_succ (L + 1) hpause rfl, hD 1, runSteps_succ 0 hadv rfl]
    simp [runSteps, Except.map]
  · intro n
    refine runSteps_total textArray (List.ne_nil_of_length_pos (by omega)) n start ?_ rfl
    exact ⟨rfl, P, hP, le_refl _, by simp [start, phraseState]⟩

/-- C1 on the two-phrase list `["Hi", "Yo"]`, from phrase 1: the six calls of one
cycle and the state they end in. -/
theorem typeText_cycle_witness :
    1 < [js "Hi", js "Yo"].length ∧
      runSteps (2 + 1 + 2 + 1) (phraseState (some ⟨[]⟩) [js "Hi", js "Yo"] CONFIG 1 0 false) =
        .ok (phraseState (some ⟨[]⟩) [js "Hi", js "Yo"] CONFIG 0 0 false,
          [⟨some (js "Y"), [(CONFIG.typingSpeed : ℚ)]⟩,
           ⟨some (js "Yo"), [(CONFIG.typingSpeed : ℚ)]⟩,
           ⟨none, [(CONFIG.pauseTime : ℚ)]⟩,
           ⟨some (js "Y"), [(CONFIG.deletingSpeed : ℚ)]⟩,
           ⟨some [], [(CONFIG.deletingSpeed : ℚ)]⟩,
           ⟨none, [(CONFIG.pauseTime : ℚ) / 2]⟩]) :=
  ⟨by decide, (typeText_cycle ⟨[]⟩ [js "Hi", js "Yo"] CONFIG 1 (by decide)).2.2.2.1⟩

/-- C2 at the default configuration: the state after the first call of
`typeText`, which has typed `P`. -/
theorem reachable_charIndex_bounds_witness :
    CONFIG.typingTexts ≠ [] ∧
      (phraseState (some ⟨js "P"⟩) CONFIG.typingTexts CONFIG 0 1 false).currentIndex <
        CONFIG.typingTexts.length ∧
      ∃ t, CONFIG.typingTexts[0]? = some t ∧ (0 : Int) ≤ 1 ∧ (1 : Int) ≤ t.length :=
  ⟨by decide,
   (reachable_charIndex_bounds (some ⟨[]⟩) CONFIG.typingTexts CONFIG (by decide)
      (phraseState (some ⟨js "P"⟩) CONFIG.typingTexts CONFIG 0 1 false)
      (Reachable.step Reachable.init
        (typeText_typing ⟨[]⟩ CONFIG.typingTexts CONFIG 0 0
          (js "Prepare for Corporate Life") rfl (by decide)))).2⟩

/-- C3 as stated fails: after the step that empties the slot of phrase 0, the
next call of `typeText` comes after `deletingSpeed` = 30 ms and only moves to
phrase 1; the call that types `B` comes a further `pauseTime / 2` = 1000 ms
later, so the delays between emptying and retyping sum to 1030 ms, not to
`pauseTime / 2`. -/
theorem empty_hold_counterexample :
    ∃ s a b c,
      runSteps 3 (phraseState (some ⟨js "P"⟩) CONFIG.typingTexts CONFIG 0 1 true) =
        .ok (s, [a, b, c]) ∧
      a.write = some [] ∧ b.write = none ∧ c.write = some (js "B") ∧
      s.currentIndex = 1 ∧
      a.timers = [30] ∧ b.timers = [1000] ∧
      a.timers.sum + b.timers.sum ≠ (CONFIG.pauseTime : ℚ) / 2 := by
  have hP : CONFIG.typingTexts[0]? = some (js "Prepare for Corporate Life") := rfl
  have hQ : CONFIG.typingTexts[1]? = some (js "Build Professional Skills") := rfl
  have h1 := typeText_deleting ⟨js "P"⟩ CONFIG.typingTexts CONFIG 0 0 _ hP
  have h2 := typeText_advance (some ⟨[]⟩) CONFIG.typingTexts CONFIG 0
  have h3 := typeText_typing ⟨[]⟩ CONFIG.typingTexts CONFIG 1 0 _ hQ (by decide)
  refine ⟨phraseState (some ⟨(js "Build Professional Skills").take 1⟩) CONFIG.typingTexts
      CONFIG 1 1 false, ⟨some [], [(CONFIG.deletingSpeed : ℚ)]⟩,
    ⟨none, [(CONFIG.pauseTime : ℚ) / 2]⟩,
    ⟨some ((js "Build Professional Skills").take 1), [(CONFIG.typingSpeed : ℚ)]⟩,
    ?_, rfl, rfl, by decide, rfl, ?_, ?_, ?_⟩
  · rw [runSteps_succ 2 h1 rfl]
    simp only [List.take_zero]
    rw [runSteps_succ 1 h2 rfl]
    rw [show (0 + 1) % CONFIG.typingTexts.length = 1 from rfl, runSteps_succ 0 h3 rfl]
    rfl
  · norm_num [CONFIG]
  · norm_num [CONFIG]
  · norm_num [CONFIG]

/-- C3, amended: in a 5-phrase list with the default timing, the step that
deletes the last visible character of phrase `i` writes the empty string and
schedules the next call after `deletingSpeed` (30 ms); that call writes nothing,
moves to phrase `(i+1) mod 5` and schedules the next call after `pauseTime / 2`
(1000 ms); that call types the first character of a non-empty next phrase. The
empty slot is held for `deletingSpeed + pauseTime / 2`. -/
theorem empty_hold (e : Element) (textArray : List JSString) (i : Nat)
    (h5 : textArray.length = 5) (hi : i < 5) :
    runSteps 2 (phraseState (some e) textArray CONFIG i 1 true) =
      .ok (phraseState (some ⟨[]⟩) textArray CONFIG ((i + 1) % 5) 0 false,
           [⟨some [], [30]⟩, ⟨none, [1000]⟩]) ∧
    (∀ Q, textArray[(i + 1) % 5]? = some Q → Q ≠ [] →
      typeText (phraseState (some ⟨[]⟩) textArray CONFIG ((i + 1) % 5) 0 false) =
        .ok (phraseState (some ⟨Q.take 1⟩) textArray CONFIG ((i + 1) % 5) 1 false,
             ⟨some (Q.take 1), [50]⟩)) ∧
    ((30 : ℚ) = CONFIG.deletingSpeed ∧ (1000 : ℚ) = (CONFIG.pauseTime : ℚ) / 2 ∧
      (50 : ℚ) = CONFIG.typingSpeed) := by
  have hc : (30 : ℚ) = CONFIG.deletingSpeed ∧ (1000 : ℚ) = (CONFIG.pauseTime : ℚ) / 2 ∧
      (50 : ℚ) = CONFIG.typingSpeed := by norm_num [CONFIG]
  obtain ⟨hd, hp, ht⟩ := hc
  have hP : textArray[i]? = some textArray[i] := List.getElem?_eq_getElem (by omega)
  have h1 := typeText_deleting e textArray CONFIG i 0 _ hP
  have h2 := typeText_advance (some ⟨[]⟩) textArray CONFIG i
  refine ⟨?_, ?_, hd, hp, ht⟩
  · rw [runSteps_succ 1 h1 rfl]
    simp only [List.take_zero]
    rw [runSteps_succ 0 h2 rfl, h5, hd, hp]
    rfl
  · intro Q hQ hne
    have hlen : 0 < Q.length := List.length_pos.mpr hne
    rw [typeText_typing ⟨[]⟩ textArray CONFIG ((i + 1) % 5) 0 Q hQ hlen, ht]

/-- C3, amended, at the default phrase list and its last phrase. -/
theorem empty_hold_witness :
    runSteps 2 (phraseState (some ⟨js "S"⟩) CONFIG.typingTexts CONFIG 4 1 true) =
      .ok (phraseState (some ⟨[]⟩) CONFIG.typingTexts CONFIG 0 0 false,
           [⟨some [], [30]⟩, ⟨none, [1000]⟩]) :=
  (empty_hold ⟨js "S"⟩ CONFIG.typingTexts 4 (by decide) (by decide)).1

/-- C10: constructing `TypingEffect` with an identifier that resolves to no
element raises nothing, writes nothing, schedules no timer, and leaves
`currentIndex = 0`, `charIndex = 0`, `isDeleting = false`. -/
theorem new_without_element (getElementById : JSString → Option Element)
    (elementId : JSString) (textArray : List JSString) (config : Config)
    (h : getElementById elementId = none) :
    ∃ s, TypingEffect.new getElementById elementId textArray config =
        .ok (s, ⟨none, []⟩) ∧
      s.element = none ∧ s.textArray = textArray ∧
      s.currentIndex = 0 ∧ s.charIndex = 0 ∧ s.isDeleting = false := by
  refine ⟨TypingEffect.initial none textArray config, ?_, rfl, rfl, rfl, rfl, rfl⟩
  simp [TypingEffect.new, h, TypingEffect.init, TypingEffect.initial]

/-- C10 on a page without the `typingText` element, default configuration. -/
theorem new_without_element_witness :
    ∃ s, TypingEffect.new (fun _ => none) (js "typingText") CONFIG.typingTexts CONFIG =
        .ok (s, ⟨none, []⟩) ∧
      s.element = none ∧ s.textArray = CONFIG.typingTexts ∧
      s.currentIndex = 0 ∧ s.charIndex = 0 ∧ s.isDeleting = false :=
  new_without_element (fun _ => none) (js "typingText") CONFIG.typingTexts CONFIG rfl

/-! ## Properties of NavigationHandler -/

theorem markLinks_of_href (current : Option JSString) (links : List NavLink)
    (h : ∀ l ∈ links, l.href.isSome = true) :
    markLinks current links = (links.map (NavLink.mark current), none) := by
  induction links with
  | nil => rfl
  | cons link rest ih =>
    have hrest := ih (fun l hl => h l (List.mem_cons_of_mem _ hl))
    obtain ⟨href, hhref⟩ := Option.isSome_iff_exists.mp (h link (List.mem_cons_self _ _))
    obtain ⟨lh, la⟩ := link
    simp only at hhref
    subst hhref
    simp only [markLinks, hrest, List.map_cons, NavLink.mark, NavLink.target, Option.map_some']
    by_cases hc : some (List.drop 1 href) = current
    · rw [if_pos hc, decide_eq_true hc]
    · rw [if_neg hc, decide_eq_false hc]

theorem updateActiveLink_of_href (nh : NavigationHandler) (sections : List Section)
    (scrollY : ℚ) (h : ∀ l ∈ nh.navLinks, l.href.isSome = true) :
    updateActiveLink nh sections scrollY =
      ({ nh with navLinks := nh.navLinks.map (NavLink.mark (currentSection sections scrollY)) },
       none) := by
  simp only [updateActiveLink, markLinks_of_href _ _ h]

theorem mem_map_mark_active (current : Option JSString) (links : List NavLink) :
    ∀ l ∈ links.map (NavLink.mark current), l.active = true ↔ l.target = current := by
  intro l hl
  obtain ⟨l0, -, rfl⟩ := List.mem_map.mp hl
  simp [NavLink.mark, NavLink.target]

theorem activeCount_map_mark (current : Option JSString) (links : List NavLink) :
    activeCount (links.map (NavLink.mark current)) =
      @List.count (Option JSString) instBEqOfDecidableEq current
        (links.map NavLink.target) := by
  induction links with
  | nil => rfl
  | cons link rest ih =>
    simp only [activeCount] at ih
    by_cases hc : link.target = current
    · simp [activeCount, NavLink.mark, List.filter_cons, hc, ih]
    · simp [activeCount, NavLink.mark, List.filter_cons, hc, ih, List.count_cons]

theorem currentSection_append (sections : List Section) (sec : Section) (scrollY : ℚ) :
    currentSection (sections ++ [sec]) scrollY =
      if scrollY ≥ (sec.offsetTop : ℚ) - 200 then sec.id
      else currentSection sections scrollY := by
  simp [currentSection, List.foldl_append]

theorem currentSection_eq_getLast (sections : List Section) (scrollY : ℚ) :
    currentSection sections scrollY =
      match (sections.filter
        (fun sec => decide ((sec.offsetTop : ℚ) - 200 ≤ scrollY))).getLast? with
      | some sec => sec.id
      | none => some [] := by
  induction sections using List.reverseRecOn with
  | nil => rfl
  | append_singleton sections sec ih =>
    rw [currentSection_append, List.filter_append]
    by_cases hq : (sec.offsetTop : ℚ) - 200 ≤ scrollY
    · have hf : List.filter (fun sec => decide ((sec.offsetTop : ℚ) - 200 ≤ scrollY)) [sec] =
          [sec] := by
        rw [List.filter_cons_of_pos (by simpa using hq), List.filter_nil]
      rw [hf, List.getLast?_concat, if_pos hq]
    · have hf : List.filter (fun sec => decide ((sec.offsetTop : ℚ) - 200 ≤ scrollY)) [sec] =
          [] := by
        rw [List.filter_cons_of_neg (by simpa using hq), List.filter_nil]
      rw [hf, List.append_nil, if_neg hq, ih]

theorem currentSection_of_none_qualify (sections : List Section) (scrollY : ℚ)
    (hq : ∀ sec ∈ sections, ¬ scrollY ≥ (sec.offsetTop : ℚ) - 200) :
    currentSection sections scrollY = some [] := by
  rw [currentSection_eq_getLast]
  have : sections.filter (fun sec => decide ((sec.offsetTop : ℚ) - 200 ≤ scrollY)) = [] := by
    rw [List.filter_eq_nil_iff]
    intro sec hsec
    simpa using hq sec hsec
  rw [this]
  rfl

/-- C4: `updateActiveLink` takes as current section the last section, in
document order, with `offsetTop - 200 ≤ scrollY` (the empty string when there is
none); for sections at offsets 0, 300, 900 and scroll offset 500 it is the one
at 300, and the links that end up active are those targeting it. -/
theorem currentSection_last_qualifying (nh : NavigationHandler) (sections : List Section)
    (scrollY : ℚ) (a b c : JSString) (h : ∀ l ∈ nh.navLinks, l.href.isSome = true) :
    (currentSection sections scrollY =
      match (sections.filter
        (fun sec => decide ((sec.offsetTop : ℚ) - 200 ≤ scrollY))).getLast? with
      | some sec => sec.id
      | none => some []) ∧
    currentSection [⟨0, some a⟩, ⟨300, some b⟩, ⟨900, some c⟩] 500 = some b ∧
    updateActiveLink nh [⟨0, some a⟩, ⟨300, some b⟩, ⟨900, some c⟩] 500 =
      ({ nh with navLinks := nh.navLinks.map (NavLink.mark (some b)) }, none) ∧
    ∀ l ∈ (updateActiveLink nh [⟨0, some a⟩, ⟨300, some b⟩, ⟨900, some c⟩] 500).1.navLinks,
      l.active = true ↔ l.target = some b := by
  have hcur : currentSection [⟨0, some a⟩, ⟨300, some b⟩, ⟨900, some c⟩] 500 = some b := by
    norm_num [currentSection]
  have hupd := updateActiveLink_of_href nh
    [⟨0, some a⟩, ⟨300, some b⟩, ⟨900, some c⟩] 500 h
  rw [hcur] at hupd
  refine ⟨currentSection_eq_getLast sections scrollY, hcur, hupd, ?_⟩
  rw [hupd]
  exact mem_map_mark_active (some b) nh.navLinks

/-- C4 on a page with sections `home`, `about`, `contact` and a link to each. -/
theorem currentSection_last_qualifying_witness :
    (updateActiveLink
        ⟨some ⟨false⟩, some ⟨false⟩,
          [⟨some (js "#home"), true⟩, ⟨some (js "#about"), false⟩,
           ⟨some (js "#contact"), true⟩]⟩
        [⟨0, some (js "home")⟩, ⟨300, some (js "about")⟩, ⟨900, some (js "contact")⟩] 500) =
      (⟨some ⟨false⟩, some ⟨false⟩,
          [⟨some (js "#home"), false⟩, ⟨some (js "#about"), true⟩,
           ⟨some (js "#contact"), false⟩]⟩, none) :=
  (currentSection_last_qualifying
    ⟨some ⟨false⟩, some ⟨false⟩,
      [⟨some (js "#home"), true⟩, ⟨some (js "#about"), false⟩, ⟨some (js "#contact"), true⟩]⟩
    [] 0 (js "home") (js "about") (js "contact") (by decide)).2.2.1

/-- C5 as stated fails: at scroll offset 50 the section at offset 0 qualifies
(50 ≥ 0 - 200), it is the current section and its link is marked active. -/
theorem scroll50_counterexample :
    currentSection
        [⟨0, some (js "home")⟩, ⟨300, some (js "about")⟩, ⟨900, some (js "contact")⟩] 50 =
      some (js "home") ∧
    updateActiveLink
        ⟨some ⟨false⟩, some ⟨false⟩,
          [⟨some (js "#home"), false⟩, ⟨some (js "#about"), false⟩,
           ⟨some (js "#contact"), false⟩]⟩
        [⟨0, some (js "home")⟩, ⟨300, some (js "about")⟩, ⟨900, some (js "contact")⟩] 50 =
      (⟨some ⟨false⟩, some ⟨false⟩,
          [⟨some (js "#home"), true⟩, ⟨some (js "#about"), false⟩,
           ⟨some (js "#contact"), false⟩]⟩, none) := by
  have hcur : currentSection
      [⟨0, some (js "home")⟩, ⟨300, some (js "about")⟩, ⟨900, some (js "contact")⟩] 50 =
      some (js "home") := by
    norm_num [currentSection]
  refine ⟨hcur, ?_⟩
  rw [updateActiveLink_of_href _ _ _ (by decide), hcur]
  decide

/-- C5, amended: for sections at offsets 0, 300, 900 and scroll offset 50 the
section at offset 0 qualifies and is the current section; `updateActiveLink`
marks active the links targeting it and clears every other link. -/
theorem scroll50_first_section (nh : NavigationHandler) (a b c : JSString)
    (h : ∀ l ∈ nh.navLinks, l.href.isSome = true) :
    currentSection [⟨0, some a⟩, ⟨300, some b⟩, ⟨900, some c⟩] 50 = some a ∧
    updateActiveLink nh [⟨0, some a⟩, ⟨300, some b⟩, ⟨900, some c⟩] 50 =
      ({ nh with navLinks := nh.navLinks.map (NavLink.mark (some a)) }, none) ∧
    ∀ l ∈ (updateActiveLink nh [⟨0, some a⟩, ⟨300, some b⟩, ⟨900, some c⟩] 50).1.navLinks,
      l.active = true ↔ l.target = some a := by
  have hcur : currentSection [⟨0, some a⟩, ⟨300, some b⟩, ⟨900, some c⟩] 50 = some a := by
    norm_num [currentSection]
  have hupd := updateActiveLink_of_href nh
    [⟨0, some a⟩, ⟨300, some b⟩, ⟨900, some c⟩] 50 h
  rw [hcur] at hupd
  refine ⟨hcur, hupd, ?_⟩
  rw [hupd]
  exact mem_map_mark_active (some a) nh.navLinks

/-- C5, amended, on a page with sections `home`, `about`, `contact`. -/
theorem scroll50_first_section_witness :
    currentSection
        [⟨0, some (js "home")⟩, ⟨300, some (js "about")⟩, ⟨900, some (js "contact")⟩] 50 =
      some (js "home") :=
  (scroll50_first_section
    ⟨none, none, [⟨some (js "#about"), true⟩, ⟨some (js "#home"), false⟩]⟩
    (js "home") (js "about") (js "contact") (by decide)).1

/-- C6 as stated fails: two nav links with the same target are both marked
active. -/
theorem two_active_counterexample :
    (updateActiveLink
        ⟨some ⟨false⟩, some ⟨false⟩,
          [⟨some (js "#home"), false⟩, ⟨some (js "#home"), false⟩]⟩
        [⟨0, some (js "home")⟩] 0) =
      (⟨some ⟨false⟩, some ⟨false⟩,
          [⟨some (js "#home"), true⟩, ⟨some (js "#home"), true⟩]⟩, none) ∧
    ¬ activeCount (updateActiveLink
        ⟨some ⟨false⟩, some ⟨false⟩,
          [⟨some (js "#home"), false⟩, ⟨some (js "#home"), false⟩]⟩
        [⟨0, some (js "home")⟩] 0).1.navLinks ≤ 1 := by
  have hcur : currentSection [⟨0, some (js "home")⟩] 0 = some (js "home") := by
    norm_num [currentSection]
  have hupd := updateActiveLink_of_href
    ⟨some ⟨false⟩, some ⟨false⟩, [⟨some (js "#home"), false⟩, ⟨some (js "#home"), false⟩]⟩
    [⟨0, some (js "home")⟩] 0 (by decide)
  rw [hcur] at hupd
  rw [hupd]
  decide

/-- C6, amended: after a call of `updateActiveLink` on links that all have an
`href`, whatever was active before, a link is active exactly when its target
(`href.slice(1)`) equals the current section, and every other link is cleared;
when the links have pairwise different targets at most one link is active. -/
theorem updateActiveLink_active_iff (nh : NavigationHandler) (sections : List Section)
    (scrollY : ℚ) (h : ∀ l ∈ nh.navLinks, l.href.isSome = true) :
    updateActiveLink nh sections scrollY =
      ({ nh with navLinks := nh.navLinks.map (NavLink.mark (currentSection sections scrollY)) },
       none) ∧
    (∀ l ∈ (updateActiveLink nh sections scrollY).1.navLinks,
      l.active = true ↔ l.target = currentSection sections scrollY) ∧
    ((nh.navLinks.map NavLink.target).Nodup →
      activeCount (updateActiveLink nh sections scrollY).1.navLinks ≤ 1) := by
  have hupd := updateActiveLink_of_href nh sections scrollY h
  refine ⟨hupd, ?_, ?_⟩
  · rw [hupd]
    exact mem_map_mark_active _ nh.navLinks
  · intro hnd
    rw [hupd]
    simp only
    rw [activeCount_map_mark]
    exact List.nodup_iff_count_le_one.mp hnd _

/-- C6, amended, on three links of which two were active before. -/
theorem updateActiveLink_active_iff_witness :
    activeCount (updateActiveLink
        ⟨some ⟨false⟩, some ⟨false⟩,
          [⟨some (js "#home"), true⟩, ⟨some (js "#about"), false⟩,
           ⟨some (js "#contact"), true⟩]⟩
        [⟨0, some (js "home")⟩, ⟨300, some (js "about")⟩] 120).1.navLinks ≤ 1 :=
  (updateActiveLink_active_iff
    ⟨some ⟨false⟩, some ⟨false⟩,
      [⟨some (js "#home"), true⟩, ⟨some (js "#about"), false⟩, ⟨some (js "#contact"), true⟩]⟩
    [⟨0, some (js "home")⟩, ⟨300, some (js "about")⟩] 120 (by decide)).2.2 (by decide)

/-- C9 as stated fails: with no section at all, a nav link whose `href` is `#`
has the empty target, which equals the initial `current`, and is marked
active. -/
theorem no_section_counterexample :
    updateActiveLink ⟨some ⟨false⟩, some ⟨false⟩, [⟨some (js "#"), false⟩]⟩ [] 0 =
      (⟨some ⟨false⟩, some ⟨false⟩, [⟨some (js "#"), true⟩]⟩, none) := by
  decide

/-- C9, amended: when no section has `scrollY ≥ offsetTop - 200`, and so when
there is no section, `current` stays the empty string and, on links that all
have an `href`, `updateActiveLink` leaves active exactly the links whose target
is the empty string: no link with a non-empty target is active. -/
theorem updateActiveLink_none_qualify (nh : NavigationHandler) (sections : List Section)
    (scrollY : ℚ) (h : ∀ l ∈ nh.navLinks, l.href.isSome = true)
    (hq : ∀ sec ∈ sections, ¬ scrollY ≥ (sec.offsetTop : ℚ) - 200) :
    currentSection sections scrollY = some [] ∧
    (∀ l ∈ (updateActiveLink nh sections scrollY).1.navLinks,
      l.active = true ↔ l.target = some []) ∧
    (updateActiveLink nh sections scrollY).2 = none ∧
    updateActiveLink nh [] scrollY = updateActiveLink nh sections scrollY := by
  have hcur := currentSection_of_none_qualify sections scrollY hq
  have hupd := updateActiveLink_of_href nh sections scrollY h
  have hupd0 := updateActiveLink_of_href nh [] scrollY h
  rw [hcur] at hupd
  rw [show currentSection [] scrollY = some [] from rfl] at hupd0
  refine ⟨hcur, ?_, ?_, ?_⟩
  · rw [hupd]
    exact mem_map_mark_active _ nh.navLinks
  · rw [hupd]
  · rw [hupd, hupd0]

/-- C9, amended, at scroll offset 50 above a single section at offset 300. -/
theorem updateActiveLink_none_qualify_witness :
    currentSection [⟨300, some (js "about")⟩] 50 = some [] ∧
    (updateActiveLink
        ⟨some ⟨false⟩, some ⟨false⟩, [⟨some (js "#"), false⟩, ⟨some (js "#about"), true⟩]⟩
        [⟨300, some (js "about")⟩] 50).2 = none :=
  have h := updateActiveLink_none_qualify
    ⟨some ⟨false⟩, some ⟨false⟩, [⟨some (js "#"), false⟩, ⟨some (js "#about"), true⟩]⟩
    [⟨300, some (js "about")⟩] 50 (by decide) (by norm_num)
  ⟨h.1, h.2.2.1⟩

/-- C7 fails on the code: without the hamburger `closeMenu` raises a `TypeError`,
also when reached by a nav-link click or the Escape key; with the hamburger but
without the menu container, `toggleMenu` and `closeMenu` change the hamburger's
class and then raise. -/
theorem closeMenu_raises_without_element :
    closeMenu ⟨none, some ⟨true⟩, [⟨some (js "#home"), false⟩]⟩ =
      (⟨none, some ⟨true⟩, [⟨some (js "#home"), false⟩]⟩, some .typeError) ∧
    dispatch ⟨none, some ⟨true⟩, [⟨some (js "#home"), false⟩]⟩ .escapeKey =
      (⟨none, some ⟨true⟩, [⟨some (js "#home"), false⟩]⟩, some .typeError) ∧
    dispatch ⟨none, some ⟨true⟩, [⟨some (js "#home"), false⟩]⟩ (.navLinkClick 0) =
      (⟨none, some ⟨true⟩, [⟨some (js "#home"), false⟩]⟩, some .typeError) ∧
    toggleMenu ⟨none, some ⟨true⟩, []⟩ = (⟨none, some ⟨true⟩, []⟩, some .typeError) ∧
    dispatch ⟨some ⟨false⟩, none, []⟩ .hamburgerClick =
      (⟨some ⟨true⟩, none, []⟩, some .typeError) ∧
    dispatch ⟨some ⟨true⟩, none, []⟩ .escapeKey =
      (⟨some ⟨false⟩, none, []⟩, some .typeError) := by
  decide

/-! ## Properties of ScrollAnimations -/

theorem intersecting_cons (entry : Entry) (entries : List Entry) :
    intersecting (entry :: entries) =
      if entry.isIntersecting then entry.target :: intersecting entries
      else intersecting entries := by
  cases h : entry.isIntersecting <;> simp [intersecting, List.filter_cons, h]

theorem handleIntersection_cons (s : ScrollAnimations) (entry : Entry)
    (entries : List Entry) :
    handleIntersection s (entry :: entries) =
      handleIntersection (handleEntry s entry) entries := rfl

theorem handleIntersection_style (entries : List Entry) :
    ∀ (s : ScrollAnimations) (x : Nat),
      (handleIntersection s entries).style x =
        if x ∈ intersecting entries then ⟨js "fadeInUp 0.6s ease forwards", js "0"⟩
        else s.style x := by
  induction entries with
  | nil => intro s x; simp [handleIntersection, intersecting]
  | cons entry entries ih =>
    intro s x
    rw [handleIntersection_cons, ih, intersecting_cons]
    cases hi : entry.isIntersecting
    · simp [handleEntry, hi]
    · simp only [handleEntry, hi, if_true, List.mem_cons]
      by_cases hx : x ∈ intersecting entries
      · simp [hx]
      · by_cases hxe : x = entry.target
        · subst hxe; simp [hx]
        · simp [hx, hxe, Function.update_noteq hxe]

theorem handleIntersection_observed (entries : List Entry) :
    ∀ (s : ScrollAnimations),
      (handleIntersection s entries).observed =
        s.observed.filter (fun x => decide (x ∉ intersecting entries)) := by
  induction entries with
  | nil => intro s; simp [handleIntersection, intersecting]
  | cons entry entries ih =>
    intro s
    rw [handleIntersection_cons, ih, intersecting_cons]
    cases hi : entry.isIntersecting
    · simp [handleEntry, hi]
    · simp only [handleEntry, hi, if_true, List.filter_filter, List.mem_cons]
      apply List.filter_congr
      intro x _
      by_cases hx : x ∈ intersecting entries <;> by_cases hxe : x = entry.target <;>
        simp [hx, hxe]

theorem revealed_handleIntersection (s : ScrollAnimations) (entries : List Entry) (x : Nat)
    (hx : Revealed s x) :
    (handleIntersection s entries).style x = s.style x ∧
      Revealed (handleIntersection s entries) x := by
  obtain ⟨ha, ho, hw⟩ := hx
  have hstyle : (handleIntersection s entries).style x = s.style x := by
    rw [handleIntersection_style]
    split_ifs
    · cases hs : s.style x with
      | mk an op => rw [hs] at ha ho; simp only at ha ho; rw [ha, ho]
    · rfl
  refine ⟨hstyle, ?_, ?_, ?_⟩
  · rw [hstyle]; exact ha
  · rw [hstyle]; exact ho
  · rw [handleIntersection_observed]
    intro hmem
    exact hw (List.mem_filter.mp hmem).1

theorem revealed_batches (batches : List (List Entry)) :
    ∀ (s : ScrollAnimations) (x : Nat), Revealed s x →
      (batches.foldl handleIntersection s).style x = s.style x ∧
        Revealed (batches.foldl handleIntersection s) x := by
  induction batches with
  | nil => intro s x hx; exact ⟨rfl, hx⟩
  | cons batch batches ih =>
    intro s x hx
    obtain ⟨h1, h2⟩ := revealed_handleIntersection s batch x hx
    obtain ⟨h3, h4⟩ := ih (handleIntersection s batch) x h2
    exact ⟨by rw [List.foldl_cons, h3, h1], h4⟩

/-- C8: `handleIntersection` is idempotent on (styles, watch-set): delivering a
batch a second time leaves the state of the first delivery; an intersecting
entry reveals its block (opacity `0`, the fade-in animation, unwatched); and
once a block is revealed no later batch of notifications, intersecting or not,
changes its style or puts it back in the watch-set. -/
theorem handleIntersection_idempotent :
    (∀ (s : ScrollAnimations) (entries : List Entry),
      handleIntersection (handleIntersection s entries) entries =
        handleIntersection s entries) ∧
    (∀ (s : ScrollAnimations) (entries : List Entry) (x : Nat),
      x ∈ intersecting entries → Revealed (handleIntersection s entries) x) ∧
    (∀ (s : ScrollAnimations) (x : Nat) (batches : List (List Entry)),
      Revealed s x →
        (batches.foldl handleIntersection s).style x = s.style x ∧
          x ∉ (batches.foldl handleIntersection s).observed) := by
  refine ⟨?_, ?_, ?_⟩
  · intro s entries
    have hst : (handleIntersection (handleIntersection s entries) entries).style =
        (handleIntersection s entries).style := by
      funext x
      rw [handleIntersection_style entries (handleIntersection s entries)]
      split_ifs with hx
      · rw [handleIntersection_style, if_pos hx]
      · rfl
    have hob : (handleIntersection (handleIntersection s entries) entries).observed =
        (handleIntersection s entries).observed := by
      rw [handleIntersection_observed entries (handleIntersection s entries),
        handleIntersection_observed entries s, List.filter_filter]
      apply List.filter_congr
      intro x _
      simp
    cases h1 : handleIntersection (handleIntersection s entries) entries with
    | mk st1 ob1 =>
      cases h2 : handleIntersection s entries with
      | mk st2 ob2 =>
        rw [h1, h2] at hst hob
        simp only at hst hob
        rw [hst, hob]
  · intro s entries x hx
    refine ⟨?_, ?_, ?_⟩
    · rw [handleIntersection_style, if_pos hx]
    · rw [handleIntersection_style, if_pos hx]
    · rw [handleIntersection_observed]
      intro hmem
      simpa [hx] using (List.mem_filter.mp hmem).2
  · intro s x batches hx
    obtain ⟨h1, h2⟩ := revealed_batches batches s x hx
    exact ⟨h1, h2.2.2⟩

/-- C8 on block 3, revealed by a first batch and then notified twice more. -/
theorem handleIntersection_idempotent_witness :
    Revealed (handleIntersection ⟨fun _ => ⟨[], js "1"⟩, [1, 3, 5]⟩ [⟨3, true⟩]) 3 ∧
    ([[⟨3, false⟩, ⟨5, true⟩], [⟨3, true⟩]].foldl handleIntersection
        (handleIntersection ⟨fun _ => ⟨[], js "1"⟩, [1, 3, 5]⟩ [⟨3, true⟩])).style 3 =
      (handleIntersection ⟨fun _ => ⟨[], js "1"⟩, [1, 3, 5]⟩ [⟨3, true⟩]).style 3 ∧
    3 ∉ ([[⟨3, false⟩, ⟨5, true⟩], [⟨3, true⟩]].foldl handleIntersection
        (handleIntersection ⟨fun _ => ⟨[], js "1"⟩, [1, 3, 5]⟩ [⟨3, true⟩])).observed :=
  have hr := handleIntersection_idempotent.2.1 ⟨fun _ => ⟨[], js "1"⟩, [1, 3, 5]⟩
    [⟨3, true⟩] 3 (by decide)
  ⟨hr, handleIntersection_idempotent.2.2 _ 3 [[⟨3, false⟩, ⟨5, true⟩], [⟨3, true⟩]] hr⟩

end CorporateReady
